import Mathlib

/-!
Verification of the `downcase` builtin of the VRL function/expression
execution framework (`src/lib/vrl/stdlib/src/downcase.rs`) against its
natural-language specification.

The file embeds the relevant Rust code shallowly: the `Value` model, the
`Kind`/`TypeDef` static type layer and the argument binders are modelled
from the spec (the VRL framework crate is not part of the source tree);
`Downcase::parameters`, `Downcase::compile`, `Downcase::call`,
`vrl_fn_downcase`, `DowncaseFn::resolve` and `DowncaseFn::type_def` are
translated directly from `downcase.rs`.  Byte strings are `List Nat`
(byte values), decoded strings are `List Nat` (Unicode code points).
-/

namespace Vrl

/-- The primitive shapes a runtime `Value` can take.  Modelled from the
spec: "a closed variant over Null, Boolean, Bytes, Integer, Float,
Timestamp, Array, Mapping, Regex". -/
inductive ValueShape where
  | null
  | boolean
  | bytes
  | integer
  | float
  | timestamp
  | array
  | mapping
  | regex
deriving DecidableEq, Repr

/-- Modelled from the spec: the dynamic, tagged runtime value of VRL
("a closed variant over Null, Boolean, Bytes, Integer, Float, Timestamp,
Array, Mapping, Regex").  Bytes are arbitrary byte sequences (`List Nat`,
each entry a byte value); the Float payload is carried as its bit
pattern and never inspected by the code under study. -/
inductive Value where
  | null
  | boolean (b : Bool)
  | bytes (bs : List Nat)
  | integer (i : Int)
  | float (bits : Nat)
  | timestamp (epochNanos : Int)
  | array (xs : List Value)
  | mapping (m : List (List Nat × Value))
  | regex (pattern : List Nat)

/-- The shape tag of a runtime value. -/
def Value.shape : Value → ValueShape
  | .null => .null
  | .boolean _ => .boolean
  | .bytes _ => .bytes
  | .integer _ => .integer
  | .float _ => .float
  | .timestamp _ => .timestamp
  | .array _ => .array
  | .mapping _ => .mapping
  | .regex _ => .regex

/-- Modelled from the spec: a `Kind` is a set-valued classification over
the `Value` shapes, represented as its membership predicate. -/
def Kind := ValueShape → Bool

/-- All nine value shapes, used to decide subset tests on `Kind`s. -/
def allShapes : List ValueShape :=
  [.null, .boolean, .bytes, .integer, .float, .timestamp, .array, .mapping, .regex]

/-- Modelled from the spec: `accepts` is true iff every shape in the
offered `Kind` is a member of the declared `Kind` set (subset test; the
all-shapes "any" kind always passes). -/
def Kind.accepts (declared offered : Kind) : Bool :=
  allShapes.all (fun s => !(offered s) || declared s)

namespace kind

/-- The `kind::BYTES` constant used by `Downcase::parameters`. -/
def BYTES : Kind := fun s => s == ValueShape.bytes

end kind

/-- Modelled from the spec: the two error classes; `RuntimeError` is
raised when a runtime `Value`'s actual `Kind` diverges from what static
typing expected ("TypeMismatch"), or by function-specific runtime
failure conditions. -/
inductive RuntimeError where
  | typeMismatch (expected : ValueShape) (got : ValueShape)
  | custom (msg : String)
deriving DecidableEq, Repr

/-- The result of one runtime evaluation step (`Resolved` =
`Result<Value, ExpressionError>` in the source). -/
abbrev Resolved := Except RuntimeError Value

/-- Modelled from the spec: the typed accessor on `Value` — "get as
Bytes, fails with RuntimeError::TypeMismatch if the underlying variant
differs" — never an unchecked cast. -/
def Value.try_bytes : Value → Except RuntimeError (List Nat)
  | .bytes bs => .ok bs
  | v => .error (.typeMismatch .bytes v.shape)

/-! ## UTF-8 lossy decoding, encoding, and lowercasing

`String::from_utf8_lossy` and `str::to_lowercase` belong to the Rust
standard library (outside this repository); they are modelled here as
executable functions on byte / code-point lists. -/

/-- Is `b` a UTF-8 continuation byte (0x80–0xBF)? -/
def isContByte (b : Nat) : Bool := 0x80 ≤ b && b ≤ 0xBF

/-- Fuel-indexed worker for `utf8Lossy`; the fuel only makes the
recursion structural (each step consumes at least one byte, so fuel
equal to the list length never runs out). -/
def utf8LossyFuel : Nat → List Nat → List Nat
  | _, [] => []
  | 0, _ => []
  | fuel + 1, b :: rest =>
    if b < 0x80 then
      b :: utf8LossyFuel fuel rest
    else if 0xC2 ≤ b && b ≤ 0xDF then
      match rest with
      | b2 :: rest2 =>
        if isContByte b2 then
          ((b % 0x20) * 0x40 + b2 % 0x40) :: utf8LossyFuel fuel rest2
        else 0xFFFD :: utf8LossyFuel fuel rest
      | [] => [0xFFFD]
    else if 0xE0 ≤ b && b ≤ 0xEF then
      match rest with
      | b2 :: rest2 =>
        if (if b == 0xE0 then 0xA0 ≤ b2 && b2 ≤ 0xBF
            else if b == 0xED then 0x80 ≤ b2 && b2 ≤ 0x9F
            else isContByte b2) then
          match rest2 with
          | b3 :: rest3 =>
            if isContByte b3 then
              ((b % 0x10) * 0x1000 + (b2 % 0x40) * 0x40 + b3 % 0x40) :: utf8LossyFuel fuel rest3
            else 0xFFFD :: utf8LossyFuel fuel rest2
          | [] => [0xFFFD]
        else 0xFFFD :: utf8LossyFuel fuel rest
      | [] => [0xFFFD]
    else if 0xF0 ≤ b && b ≤ 0xF4 then
      match rest with
      | b2 :: rest2 =>
        if (if b == 0xF0 then 0x90 ≤ b2 && b2 ≤ 0xBF
            else if b == 0xF4 then 0x80 ≤ b2 && b2 ≤ 0x8F
            else isContByte b2) then
          match rest2 with
          | b3 :: rest3 =>
            if isContByte b3 then
              match rest3 with
              | b4 :: rest4 =>
                if isContByte b4 then
                  ((b % 8) * 0x40000 + (b2 % 0x40) * 0x1000 +
                      (b3 % 0x40) * 0x40 + b4 % 0x40) :: utf8LossyFuel fuel rest4
                else 0xFFFD :: utf8LossyFuel fuel rest3
              | [] => [0xFFFD]
            else 0xFFFD :: utf8LossyFuel fuel rest2
          | [] => [0xFFFD]
        else 0xFFFD :: utf8LossyFuel fuel rest
      | [] => [0xFFFD]
    else
      0xFFFD :: utf8LossyFuel fuel rest

/-- Modelled from the spec: lossy UTF-8 decoding as performed by Rust's
`String::from_utf8_lossy` — well-formed sequences decode to their code
points, each maximal invalid subsequence is replaced by U+FFFD.  Input
is a list of byte values, output a list of Unicode code points. -/
def utf8Lossy (bs : List Nat) : List Nat :=
  utf8LossyFuel bs.length bs

/-- UTF-8 encoding of one code point (the `String` → `Value::Bytes`
conversion performed by `.into()` in the source). -/
def utf8EncodeChar (c : Nat) : List Nat :=
  if c < 0x80 then [c]
  else if c < 0x800 then [0xC0 + c / 0x40, 0x80 + c % 0x40]
  else if c < 0x10000 then
    [0xE0 + c / 0x1000, 0x80 + (c / 0x40) % 0x40, 0x80 + c % 0x40]
  else
    [0xF0 + c / 0x40000, 0x80 + (c / 0x1000) % 0x40,
      0x80 + (c / 0x40) % 0x40, 0x80 + c % 0x40]

/-- UTF-8 encoding of a list of code points. -/
def utf8Encode (cs : List Nat) : List Nat :=
  (cs.map utf8EncodeChar).flatten

/-- Modelled from the spec: Unicode lowercasing of one code point as
applied by Rust's `str::to_lowercase`, modelled on the ASCII range
(other code points are returned unchanged; the claims under study
depend only on this mapping being applied uniformly on every execution
path, and concretely only on ASCII inputs). -/
def charToLower (c : Nat) : Nat :=
  if 0x41 ≤ c && c ≤ 0x5A then c + 0x20 else c

/-- Lowercasing of a decoded string (`str::to_lowercase`). -/
def strToLowercase (cs : List Nat) : List Nat := cs.map charToLower

/-- The bytes of an ASCII/Unicode Lean string literal, as Rust would
store them in a `Value::Bytes` (UTF-8 encoding of its code points). -/
def strBytes (s : String) : List Nat :=
  utf8Encode (s.data.map Char.toNat)

/-- Modelled from the spec: `try_bytes_utf8_lossy` — get the value as
Bytes (failing with a TypeMismatch on any other variant) and lossily
decode them as UTF-8. -/
def Value.try_bytes_utf8_lossy (v : Value) : Except RuntimeError (List Nat) :=
  v.try_bytes.map utf8Lossy

/-! ## Static type layer, parameters, expressions -/

/-- Modelled from the spec: `TypeDef` is the pair of a `Kind` set and a
fallibility flag, attached to every expression node. -/
structure TypeDef where
  kind : Kind
  fallible : Bool

/-- Modelled from the spec: `TypeDef::new()` — the builder start, an
empty `Kind` set, not fallible. -/
def TypeDef.new : TypeDef :=
  { kind := fun _ => false, fallible := false }

/-- Modelled from the spec: the builder-style `.bytes()` mutator adds
the Bytes shape to the descriptor's `Kind` set. -/
def TypeDef.bytes (t : TypeDef) : TypeDef :=
  { t with kind := fun s => t.kind s || s == ValueShape.bytes }

/-- Modelled from the spec: the builder-style `.infallible()` mutator
clears the fallibility flag. -/
def TypeDef.infallible (t : TypeDef) : TypeDef :=
  { t with fallible := false }

/-- Modelled from the spec: a `Parameter` declares one named, typed,
required/optional input slot for a function. -/
structure Parameter where
  keyword : String
  kind : Kind
  required : Bool

namespace state

/-- The compiler state type passed to `compile` and `type_def`
(read-only; its content is irrelevant to `downcase`, which ignores
it). -/
def Compiler := Unit

end state

/-- The compile context passed to `Function::compile` (ignored by
`Downcase::compile`). -/
def FunctionCompileContext := Unit

/-- The runtime context passed to `Expression::resolve` (current event,
timezone, ...); `downcase` only forwards it to its argument. -/
def Context := Unit

/-- A compiled expression node: its tree-walking runtime evaluation and
its static type operation, per the spec's `Expression` contract. -/
structure Expression where
  resolve : Context → Resolved
  type_def : state.Compiler → TypeDef

/-- A literal expression: resolving yields the stored value, its static
type is the value's own shape, infallible. -/
def Expression.literal (v : Value) : Expression :=
  { resolve := fun _ => .ok v
    type_def := fun _ => { kind := fun s => s == v.shape, fallible := false } }

/-! ## Argument binding -/

/-- Modelled from the spec: the two compile-time failure cases of the
argument binder, surfaced with the offending keyword. -/
inductive CompileError where
  | missingRequired (keyword : String)
  | unknownKeyword (keyword : String)
  | typeMismatchFor (keyword : String)
deriving DecidableEq, Repr

/-- The resolved argument collection handed to a function's compile
step, addressable by keyword. -/
def ArgumentList := List (String × Expression)

/-- The `ArgumentList::required` accessor used by `Downcase::compile`:
fetch the bound sub-expression for a keyword; in the source it panics
when the binder did not bind that keyword, modelled as `none`. -/
def ArgumentList.required (args : ArgumentList) (kw : String) : Option Expression :=
  (args.find? (fun a => a.fst == kw)).map Prod.snd

/-- Modelled from the spec: the compile-time argument binder.  Step 1:
each required `Parameter` must have a matching argument by keyword,
else a "missing required argument" compile error.  Edge case policy:
unknown keywords are a compile error, not silently ignored.  Step 2:
each located argument's declared `TypeDef` `Kind` set must be accepted
by the `Parameter`'s `Kind` set, else a "type mismatch" compile error.
Step 3: hand the resolved collection to the function's compile step. -/
def bind_arguments (st : state.Compiler) (params : List Parameter)
    (callArgs : List (String × Expression)) : Except CompileError ArgumentList :=
  match params.find? (fun p => p.required && !(callArgs.any (fun a => a.fst == p.keyword))) with
  | some p => .error (.missingRequired p.keyword)
  | none =>
    match callArgs.find? (fun a => !(params.any (fun p => p.keyword == a.fst))) with
    | some a => .error (.unknownKeyword a.fst)
    | none =>
      match callArgs.find? (fun a =>
          params.any (fun p =>
            p.keyword == a.fst && !(p.kind.accepts (a.snd.type_def st).kind))) with
      | some a => .error (.typeMismatchFor a.fst)
      | none => .ok callArgs

/-- The VM-side runtime argument list.  Modelled from the spec: the
runtime argument accessor "fetches already-resolved values for each
declared parameter", keyed by keyword. -/
def VmArgumentList := List (String × Value)

/-- Modelled from the spec: the VM-side `required` accessor fetches the
already-resolved value for a declared parameter's keyword; in the
source it panics when absent, modelled as `none`. -/
def VmArgumentList.required (args : VmArgumentList) (kw : String) : Option Value :=
  (args.find? (fun a => a.fst == kw)).map Prod.snd

/-! ## The `downcase` function (translated from `downcase.rs`) -/

/-- The compiled expression node for `downcase`, closing over the bound
`value` argument sub-expression (`struct DowncaseFn` in the source). -/
structure DowncaseFn where
  value : Expression

/-- `DowncaseFn::resolve`: resolve the inner expression, narrow it to
bytes with `try_bytes` (propagating either error with `?`), then
lossily decode, lowercase, and convert the string back into a Bytes
value. -/
def DowncaseFn.resolve (f : DowncaseFn) (ctx : Context) : Resolved := do
  let bytes ← (← f.value.resolve ctx).try_bytes
  pure (Value.bytes (utf8Encode (strToLowercase (utf8Lossy bytes))))

/-- `DowncaseFn::type_def`: the constant descriptor
`TypeDef::new().bytes().infallible()`, ignoring the compiler state. -/
def DowncaseFn.type_def (_f : DowncaseFn) (_s : state.Compiler) : TypeDef :=
  TypeDef.new.bytes.infallible

namespace Downcase

/-- `Downcase::identifier`. -/
def identifier : String := "downcase"

/-- `Downcase::parameters`: exactly one parameter, keyword "value",
kind BYTES, required. -/
def parameters : List Parameter :=
  [{ keyword := "value", kind := kind.BYTES, required := true }]

/-- `Downcase::compile`: bind the "value" argument via the
required-argument accessor (whose panic on an unbound keyword is
modelled as `none`) and return the compiled `DowncaseFn` node wrapped
in `Ok`. -/
def compile (_st : state.Compiler) (_ctx : FunctionCompileContext)
    (arguments : ArgumentList) : Option (Except CompileError DowncaseFn) :=
  (arguments.required "value").map (fun value => .ok { value })

/-- One `(title, source, result)` conformance example, with the
expected result held as the `Value` its source-literal text denotes. -/
structure Example where
  title : String
  source : String
  result : Except String Value

/-- `Downcase::examples`: the single canonical example. -/
def examples : List Example :=
  [{ title := "downcase"
     source := "downcase(\"FOO 2 BAR\")"
     result := .ok (Value.bytes (strBytes "foo 2 bar")) }]

/-- `Downcase::call`: the direct, non-tree-walking entry point used by
the native-dispatch path.  Fetches the "value" runtime argument and
computes `value.try_bytes_utf8_lossy().unwrap().to_lowercase().into()`;
the two panics (absent argument, `unwrap` of a non-Bytes value) are
modelled as `none`. -/
def call (args : VmArgumentList) : Option Value := do
  let value ← args.required "value"
  let s ← value.try_bytes_utf8_lossy.toOption
  pure (Value.bytes (utf8Encode (strToLowercase s)))

end Downcase

/-- `vrl_fn_downcase`: the native dispatch entry point.  It moves the
input slot's contents out (leaving `Ok(Value::Null)` behind via
`mem::swap`), then writes to the output slot: the moved-in result's
error if any (`value?`), a type-mismatch error if the value is not
Bytes (`try_bytes()?`), otherwise the lowercased lossy decoding.  The
returned pair is (final input slot, final output slot). -/
def vrl_fn_downcase (value resolved : Resolved) : Resolved × Resolved :=
  let moved := value
  let newValue : Resolved := .ok Value.null
  let result : Resolved := do
    let v ← moved
    let bytes ← v.try_bytes
    pure (Value.bytes (utf8Encode (strToLowercase (utf8Lossy bytes))))
  (newValue, result)

/-- The byte string every execution path of `downcase` produces from an
input byte string: lossy UTF-8 decode, lowercase, re-encode. -/
def downcasedBytes (bs : List Nat) : List Nat :=
  utf8Encode (strToLowercase (utf8Lossy bs))

/-! ## Helper lemmas -/

/-- `DowncaseFn.resolve` written as explicit `Except` binds. -/
lemma DowncaseFn.resolve_eq (f : DowncaseFn) (ctx : Context) :
    f.resolve ctx =
      Except.bind (f.value.resolve ctx) (fun v =>
        Except.bind v.try_bytes (fun bytes =>
          Except.pure (Value.bytes (downcasedBytes bytes)))) := rfl

/-- When the inner expression resolves to a Bytes value, `resolve`
succeeds with the downcased bytes. -/
lemma DowncaseFn.resolve_of_bytes (f : DowncaseFn) (ctx : Context) (bs : List Nat)
    (h : f.value.resolve ctx = Except.ok (Value.bytes bs)) :
    f.resolve ctx = Except.ok (Value.bytes (downcasedBytes bs)) := by
  rw [DowncaseFn.resolve_eq, h]; rfl

/-- `Downcase.call` written as explicit `Option` binds. -/
lemma Downcase.call_eq (args : VmArgumentList) :
    Downcase.call args =
      Option.bind (args.required "value") (fun value =>
        Option.bind value.try_bytes_utf8_lossy.toOption (fun s =>
          some (Value.bytes (utf8Encode (strToLowercase s))))) := rfl

end Vrl

namespace Vrl

/-! ## Claims -/

/-- C1.  For every argument Value of the declared Kind Bytes,
`Downcase::call` with that argument produces the same Value as
resolving the `DowncaseFn` Expression obtained from `Downcase::compile`
with the same argument value bound. -/
theorem downcase_call_matches_resolve (bs : List Nat)
    (st : state.Compiler) (fctx : FunctionCompileContext) (ctx : Context) :
    Downcase.compile st fctx [("value", Expression.literal (Value.bytes bs))] =
      some (Except.ok { value := Expression.literal (Value.bytes bs) }) ∧
    Downcase.call [("value", Value.bytes bs)] =
      some (Value.bytes (downcasedBytes bs)) ∧
    DowncaseFn.resolve { value := Expression.literal (Value.bytes bs) } ctx =
      Except.ok (Value.bytes (downcasedBytes bs)) :=
  ⟨rfl, rfl, rfl⟩

/-- C3.  For every identical input (a `Resolved`: a Value or an error),
the native entry point `vrl_fn_downcase` writes to its output slot
exactly the `Resolved` that `DowncaseFn::resolve` produces when its
inner expression yields that same input; in particular an error held in
the input slot is propagated unchanged by both. -/
theorem vrl_fn_downcase_matches_resolve (input r0 : Resolved)
    (ctx : Context) (td : state.Compiler → TypeDef) :
    (vrl_fn_downcase input r0).snd =
      DowncaseFn.resolve { value := { resolve := fun _ => input, type_def := td } } ctx ∧
    (∀ err r1, (vrl_fn_downcase (Except.error err) r1).snd = Except.error err) :=
  ⟨rfl, fun _ _ => rfl⟩

/-- C6.  On every Bytes argument, all three paths of `downcase`
(`DowncaseFn::resolve`, `Downcase::call`, `vrl_fn_downcase`) return the
Bytes value obtained by lossily decoding the input bytes as UTF-8 and
lowercasing — an explicit lossy textual coercion of the raw bytes, not
a reinterpretation of them. -/
theorem downcase_is_lossy_coercion (bs : List Nat) (ctx : Context) (r0 : Resolved) :
    DowncaseFn.resolve { value := Expression.literal (Value.bytes bs) } ctx =
      Except.ok (Value.bytes (utf8Encode (strToLowercase (utf8Lossy bs)))) ∧
    Downcase.call [("value", Value.bytes bs)] =
      some (Value.bytes (utf8Encode (strToLowercase (utf8Lossy bs)))) ∧
    (vrl_fn_downcase (Except.ok (Value.bytes bs)) r0).snd =
      Except.ok (Value.bytes (utf8Encode (strToLowercase (utf8Lossy bs)))) :=
  ⟨rfl, rfl, rfl⟩

/-- C8.  `DowncaseFn::type_def` is a constant function of no runtime
input: any two compiled `downcase` nodes have identical static types,
namely `TypeDef::new().bytes().infallible()` (Kind exactly BYTES,
not fallible), regardless of the compiler state or the bound argument
expression. -/
theorem downcase_type_def_deterministic (f g : DowncaseFn)
    (st1 st2 : state.Compiler) :
    f.type_def st1 = g.type_def st2 ∧
    f.type_def st1 = TypeDef.new.bytes.infallible ∧
    (f.type_def st1).fallible = false ∧
    (f.type_def st1).kind = kind.BYTES :=
  ⟨rfl, rfl, rfl, rfl⟩

/-- C10.  `vrl_fn_downcase` consumes its input slot: after every
invocation the input slot holds `Ok(Value::Null)` whatever it held
before, and the output slot's contents depend only on the input slot's
prior contents (not on the output slot's prior contents). -/
theorem vrl_fn_downcase_consumes_input (value r0 r1 : Resolved) :
    (vrl_fn_downcase value r0).fst = Except.ok Value.null ∧
    (vrl_fn_downcase value r0).snd = (vrl_fn_downcase value r1).snd :=
  ⟨rfl, rfl⟩

/-- C2.  `DowncaseFn::type_def` declares `fallible = false`, and indeed
whenever the inner "value" sub-expression resolves without error to a
Value of the declared Kind Bytes, `DowncaseFn::resolve` never returns a
RuntimeError. -/
theorem downcase_infallible_on_typechecked (f : DowncaseFn) (ctx : Context)
    (st : state.Compiler) (bs : List Nat)
    (h : f.value.resolve ctx = Except.ok (Value.bytes bs)) :
    (f.type_def st).fallible = false ∧
    ∀ err, f.resolve ctx ≠ Except.error err := by
  refine ⟨rfl, fun err hc => ?_⟩
  rw [f.resolve_of_bytes ctx bs h] at hc
  exact Except.noConfusion hc

/-- Witness for C2 at the concrete inner expression `literal "F"`. -/
theorem downcase_infallible_on_typechecked_witness :
    (Expression.literal (Value.bytes [70])).resolve () = Except.ok (Value.bytes [70]) ∧
    ((DowncaseFn.mk (Expression.literal (Value.bytes [70]))).type_def ()).fallible = false ∧
    ∀ err, (DowncaseFn.mk (Expression.literal (Value.bytes [70]))).resolve () ≠
      Except.error err :=
  ⟨rfl,
   (downcase_infallible_on_typechecked (DowncaseFn.mk (Expression.literal (Value.bytes [70])))
      () () [70] rfl).1,
   (downcase_infallible_on_typechecked (DowncaseFn.mk (Expression.literal (Value.bytes [70])))
      () () [70] rfl).2⟩

/-- C4.  Whenever `DowncaseFn::resolve` succeeds, the produced Value is
a Bytes value, and its shape is a member of the Kind set declared by
`DowncaseFn::type_def`. -/
theorem downcase_type_soundness (f : DowncaseFn) (ctx : Context)
    (st : state.Compiler) (v : Value)
    (h : f.resolve ctx = Except.ok v) :
    v.shape = ValueShape.bytes ∧ (f.type_def st).kind v.shape = true := by
  rw [DowncaseFn.resolve_eq] at h
  cases hm : f.value.resolve ctx with
  | error e =>
    rw [hm] at h
    exact Except.noConfusion h
  | ok v0 =>
    rw [hm] at h
    cases v0
    all_goals try exact Except.noConfusion h
    next bs =>
      have hv : Value.bytes (downcasedBytes bs) = v := Except.ok.inj h
      rw [← hv]
      exact ⟨rfl, rfl⟩

/-- Witness for C4 at the concrete inner expression `literal "Ca"`. -/
theorem downcase_type_soundness_witness :
    (DowncaseFn.mk (Expression.literal (Value.bytes [67, 97]))).resolve () =
      Except.ok (Value.bytes [99, 97]) ∧
    (Value.bytes [99, 97]).shape = ValueShape.bytes ∧
    ((DowncaseFn.mk (Expression.literal (Value.bytes [67, 97]))).type_def ()).kind
      (Value.bytes [99, 97]).shape = true :=
  ⟨rfl,
   (downcase_type_soundness (DowncaseFn.mk (Expression.literal (Value.bytes [67, 97])))
      () () (Value.bytes [99, 97]) rfl).1,
   (downcase_type_soundness (DowncaseFn.mk (Expression.literal (Value.bytes [67, 97])))
      () () (Value.bytes [99, 97]) rfl).2⟩

/-- C5.  The example program `downcase("FOO 2 BAR")` — a `downcase`
call whose "value" argument is the literal Bytes "FOO 2 BAR" — binds
and compiles, its TypeDef is (Kind Bytes, fallible false), and all
three evaluation paths produce the bytes "foo 2 bar", matching the
expected result declared in `Downcase::examples`. -/
theorem downcase_example_conformance :
    bind_arguments () Downcase.parameters
        [("value", Expression.literal (Value.bytes (strBytes "FOO 2 BAR")))] =
      Except.ok [("value", Expression.literal (Value.bytes (strBytes "FOO 2 BAR")))] ∧
    Downcase.compile () ()
        [("value", Expression.literal (Value.bytes (strBytes "FOO 2 BAR")))] =
      some (Except.ok
        { value := Expression.literal (Value.bytes (strBytes "FOO 2 BAR")) }) ∧
    ((DowncaseFn.mk (Expression.literal (Value.bytes (strBytes "FOO 2 BAR")))).type_def
        ()).fallible = false ∧
    ((DowncaseFn.mk (Expression.literal (Value.bytes (strBytes "FOO 2 BAR")))).type_def
        ()).kind = kind.BYTES ∧
    (DowncaseFn.mk (Expression.literal (Value.bytes (strBytes "FOO 2 BAR")))).resolve () =
      Except.ok (Value.bytes (strBytes "foo 2 bar")) ∧
    Downcase.call [("value", Value.bytes (strBytes "FOO 2 BAR"))] =
      some (Value.bytes (strBytes "foo 2 bar")) ∧
    (vrl_fn_downcase (Except.ok (Value.bytes (strBytes "FOO 2 BAR")))
        (Except.ok Value.null)).snd =
      Except.ok (Value.bytes (strBytes "foo 2 bar")) ∧
    Downcase.examples.map Downcase.Example.result =
      [Except.ok (Value.bytes (strBytes "foo 2 bar"))] :=
  ⟨rfl, rfl, rfl, rfl, rfl, rfl, rfl, rfl⟩

/-- C7.  `downcase` declares exactly one Parameter (keyword "value",
Kind BYTES, required); the binder yields a CompileError naming "value"
when that argument is omitted and a CompileError whenever an unknown
keyword is supplied; and `Downcase::compile` succeeds (via the
required-argument accessor) for every argument list in which "value"
is bound. -/
theorem downcase_argument_binding :
    Downcase.parameters = [{ keyword := "value", kind := kind.BYTES, required := true }] ∧
    (∀ (st : state.Compiler) (callArgs : List (String × Expression)),
      callArgs.all (fun a => a.fst != "value") = true →
      bind_arguments st Downcase.parameters callArgs =
        Except.error (CompileError.missingRequired "value")) ∧
    (∀ (st : state.Compiler) (callArgs : List (String × Expression))
      (a : String × Expression), a ∈ callArgs → a.fst ≠ "value" →
      ∃ err, bind_arguments st Downcase.parameters callArgs = Except.error err) ∧
    (∀ (st : state.Compiler) (fctx : FunctionCompileContext) (args : ArgumentList)
      (e : Expression), args.required "value" = some e →
      Downcase.compile st fctx args = some (Except.ok { value := e })) := by
  refine ⟨rfl, ?_, ?_, ?_⟩
  · intro st callArgs hall
    have hany : callArgs.any (fun a => a.fst == "value") = false := by
      rw [List.any_eq_false]
      intro a ha
      have := List.all_eq_true.mp hall a ha
      simpa using this
    unfold bind_arguments
    simp [Downcase.parameters, List.find?, hany]
  · intro st callArgs a ha hne
    have hsome : (callArgs.find? (fun x =>
        !(Downcase.parameters.any (fun p => p.keyword == x.fst)))).isSome := by
      rw [List.find?_isSome]
      refine ⟨a, ha, ?_⟩
      simp [Downcase.parameters]
      exact fun hcontra => hne hcontra.symm
    unfold bind_arguments
    split
    · exact ⟨_, rfl⟩
    · split
      · exact ⟨_, rfl⟩
      · rename_i hnone
        rw [hnone] at hsome
        simp at hsome
  · intro st fctx args e h
    unfold Downcase.compile
    rw [h]
    rfl

/-- Witness for C7: the empty call site, a call site with an unknown
keyword, and a call site binding "value". -/
theorem downcase_argument_binding_witness :
    bind_arguments () Downcase.parameters ([] : List (String × Expression)) =
      Except.error (CompileError.missingRequired "value") ∧
    (∃ err, bind_arguments () Downcase.parameters
        [("value", Expression.literal Value.null), ("oops", Expression.literal Value.null)] =
      Except.error err) ∧
    Downcase.compile () () [("value", Expression.literal Value.null)] =
      some (Except.ok { value := Expression.literal Value.null }) :=
  ⟨downcase_argument_binding.2.1 () [] rfl,
   downcase_argument_binding.2.2.1 ()
     [("value", Expression.literal Value.null), ("oops", Expression.literal Value.null)]
     ("oops", Expression.literal Value.null) (by simp) (by decide),
   downcase_argument_binding.2.2.2 () ()
     [("value", Expression.literal Value.null)] (Expression.literal Value.null) rfl⟩

/-- C9.  `Downcase::call` is panic-free exactly on Bytes arguments:
when the bound "value" runtime argument is a Bytes value the `unwrap`
succeeds and a Bytes value is returned; when it is any other Kind the
call panics (modelled as `none`) instead of returning an error
Value. -/
theorem downcase_call_panics_on_non_bytes (args : VmArgumentList) (v : Value)
    (h : args.required "value" = some v) :
    (∀ bs, v = Value.bytes bs →
      Downcase.call args = some (Value.bytes (downcasedBytes bs))) ∧
    (v.shape ≠ ValueShape.bytes → Downcase.call args = none) := by
  constructor
  · rintro bs rfl
    rw [Downcase.call_eq, h]
    rfl
  · intro hv
    rw [Downcase.call_eq, h]
    cases v
    all_goals first
      | exact absurd rfl hv
      | rfl

/-- Witness for C9 at an Integer argument (panic) and a Bytes argument
(success). -/
theorem downcase_call_panics_on_non_bytes_witness :
    VmArgumentList.required [("value", Value.integer 7)] "value" =
      some (Value.integer 7) ∧
    Downcase.call [("value", Value.integer 7)] = none ∧
    VmArgumentList.required [("value", Value.bytes [70])] "value" =
      some (Value.bytes [70]) ∧
    Downcase.call [("value", Value.bytes [70])] = some (Value.bytes [102]) :=
  ⟨rfl,
   (downcase_call_panics_on_non_bytes [("value", Value.integer 7)]
      (Value.integer 7) rfl).2 (by decide),
   rfl,
   (downcase_call_panics_on_non_bytes [("value", Value.bytes [70])]
      (Value.bytes [70]) rfl).1 [70] rfl⟩

end Vrl
